import Mathlib

/-!
Verification of the bulk-image-uploader core: filename parsing
(`app/utils/fileParser.ts`), pattern analysis (`analyzeImagePattern`),
the upload queue (`app/utils/imageQueue.server.ts`), the run contract
(`action` in `app/routes/app._index.tsx`), and the bounded worker pool.

Strings are modelled by Lean `String`/`List Char`; JavaScript numbers by
`Nat`/`Int` (all quantities involved are integers); thrown exceptions by
`Except`; the remote media API by an explicit transport record of
call-by-call outcomes, with an event trace recording every issued call
in program order.
-/

instance {ε α : Type} [DecidableEq ε] [DecidableEq α] : DecidableEq (Except ε α) := fun a b =>
  match a, b with
  | .error e₁, .error e₂ =>
    if h : e₁ = e₂ then .isTrue (by rw [h]) else .isFalse (fun hc => by cases hc; exact h rfl)
  | .error _, .ok _ => .isFalse (fun hc => Except.noConfusion hc)
  | .ok _, .error _ => .isFalse (fun hc => Except.noConfusion hc)
  | .ok a₁, .ok a₂ =>
    if h : a₁ = a₂ then .isTrue (by rw [h]) else .isFalse (fun hc => by cases hc; exact h rfl)

/-- Whitespace characters removed by JavaScript `String.prototype.trim`
(ASCII subset). -/
def isWS (c : Char) : Bool :=
  c = ' ' || c = '\t' || c = '\n' || c = '\r' || c = '\x0b' || c = '\x0c'

/-- Trim whitespace from both ends of a character list (JS `trim`). -/
def trimCh (cs : List Char) : List Char :=
  ((cs.dropWhile isWS).reverse.dropWhile isWS).reverse

/-- Index of the last occurrence of a character, if any
(JS `String.prototype.lastIndexOf`). -/
def lastIdxOf (c : Char) : List Char → Option Nat
  | [] => none
  | x :: xs =>
    match lastIdxOf c xs with
    | some i => some (i + 1)
    | none => if x = c then some 0 else none

/-- Extension stripping, the JS regex replace `\.[^/.]+$`: drop a final
dot followed by one or more characters none of which is a dot or slash. -/
def stripExtCh (cs : List Char) : List Char :=
  match lastIdxOf '.' cs with
  | none => cs
  | some i =>
    let suffix := cs.drop (i + 1)
    if suffix ≠ [] ∧ suffix.all (fun c => c ≠ '.' ∧ c ≠ '/') then cs.take i
    else cs

/-- Value of a leading run of decimal digits; `none` when there is no
leading digit. -/
def digitsVal (cs : List Char) : Option Nat :=
  let ds := cs.takeWhile Char.isDigit
  if ds = [] then none
  else some (ds.foldl (fun a c => a * 10 + (c.toNat - 48)) 0)

/-- JavaScript `parseInt(s, 10)`: skip leading whitespace, read an
optional sign, then the leading run of decimal digits; `none` models
`NaN`. -/
def parseIntJs (cs : List Char) : Option Int :=
  let cs := cs.dropWhile isWS
  match cs with
  | '-' :: rest => (digitsVal rest).map (fun n => -(n : Int))
  | '+' :: rest => (digitsVal rest).map (fun n => (n : Int))
  | _ => (digitsVal cs).map (fun n => (n : Int))

/-- Uppercase a string character by character (JS `toUpperCase`, ASCII). -/
def toUpperStr (s : String) : String :=
  String.mk (s.toList.map Char.toUpper)

/-- The four typed failures of `parseFilename` (the `throw new Error`
cases in `fileParser.ts`). -/
inductive ParseError where
  | noSeparator
  | emptySku
  | invalidSortNumber
  | negativeSortNumber
deriving DecidableEq, Repr

/-- Successful result of `parseFilename`. -/
structure ParseResult where
  sku : String
  sortOrder : Nat
deriving DecidableEq, Repr

/-- Character-level body of `parseFilename` from `app/utils/fileParser.ts`:
strip the extension, split at the last hyphen, trim and uppercase the SKU,
parse the suffix as a base-10 integer. -/
def parseFilenameCh (cs : List Char) : Except ParseError ParseResult :=
  match lastIdxOf '-' (stripExtCh cs) with
  | none => .error .noSeparator
  | some i =>
    if i = 0 then .error .emptySku
    else if trimCh ((stripExtCh cs).take i) = [] then .error .emptySku
    else
      match parseIntJs (trimCh ((stripExtCh cs).drop (i + 1))) with
      | none => .error .invalidSortNumber
      | some n =>
        if n < 0 then .error .negativeSortNumber
        else .ok ⟨toUpperStr (String.mk (trimCh ((stripExtCh cs).take i))), n.toNat⟩

/-- Embedding of `parseFilename` (`app/utils/fileParser.ts`). -/
def parseFilename (filename : String) : Except ParseError ParseResult :=
  parseFilenameCh filename.toList

example : parseFilename "ABC-xx.jpg" = .error .invalidSortNumber := by decide

example : parseFilename "SUMMER-DRESS-RED-01.jpg" =
    .ok ⟨"SUMMER-DRESS-RED", 1⟩ := by decide

example : parseFilename "01.jpg" = .error .noSeparator := by decide

example : parseFilename "-01.jpg" = .error .emptySku := by decide

/-- Characterization of the `InvalidSortNumber` outcome at character level. -/
theorem parseFilenameCh_invalid_iff (cs : List Char) :
    parseFilenameCh cs = .error .invalidSortNumber ↔
      ∃ i, lastIdxOf '-' (stripExtCh cs) = some i ∧ i ≠ 0 ∧
        trimCh ((stripExtCh cs).take i) ≠ [] ∧
        parseIntJs (trimCh ((stripExtCh cs).drop (i + 1))) = none := by
  unfold parseFilenameCh
  constructor
  · intro h
    split at h
    · simp at h
    · next i hidx =>
      by_cases hi : i = 0
      · simp [hi] at h
      · rw [if_neg hi] at h
        by_cases hsku : trimCh ((stripExtCh cs).take i) = []
        · simp [hsku] at h
        · rw [if_neg hsku] at h
          refine ⟨i, hidx, hi, hsku, ?_⟩
          split at h
          · assumption
          · split at h <;> simp at h
  · rintro ⟨i, hidx, hi, hsku, hp⟩
    rw [hidx]
    simp [hi, hsku, hp]

/-- Shape of a successful parse at character level. -/
theorem parseFilenameCh_ok_shape (cs : List Char) (r : ParseResult)
    (h : parseFilenameCh cs = .ok r) :
    ∃ i, lastIdxOf '-' (stripExtCh cs) = some i ∧
      r.sku = toUpperStr (String.mk (trimCh ((stripExtCh cs).take i))) ∧
      parseIntJs (trimCh ((stripExtCh cs).drop (i + 1))) = some (r.sortOrder : Int) := by
  unfold parseFilenameCh at h
  split at h
  · simp at h
  · next i hidx =>
    refine ⟨i, hidx, ?_⟩
    by_cases hi : i = 0
    · simp [hi] at h
    · rw [if_neg hi] at h
      by_cases hsku : trimCh ((stripExtCh cs).take i) = []
      · simp [hsku] at h
      · rw [if_neg hsku] at h
        split at h
        · simp at h
        · next n hn =>
          split at h
          · simp at h
          · next hneg =>
            cases h
            exact ⟨rfl, by rw [hn, Int.toNat_of_nonneg (by omega)]⟩

/-- Claim C3 (counterexample): the filename " -xx.jpg" strips to " -xx",
whose last hyphen sits at position 1 (not 0) and whose suffix "xx" is
not parseable as an integer, yet `parseFilename` fails with `EmptySku`
(the prefix trims to empty), not `InvalidSortNumber`. -/
theorem C3_counterexample :
    lastIdxOf '-' (stripExtCh (" -xx.jpg" : String).toList) = some 1 ∧
    (1 : Nat) ≠ 0 ∧
    parseIntJs (trimCh ((stripExtCh (" -xx.jpg" : String).toList).drop 2)) = none ∧
    parseFilename " -xx.jpg" = .error .emptySku ∧
    parseFilename " -xx.jpg" ≠ .error .invalidSortNumber := by
  refine ⟨by decide, by decide, by decide, by decide, by decide⟩

/-- Claim C3 (amended): `parseFilename` fails with `InvalidSortNumber`
exactly when, in the extension-stripped name, the last hyphen sits at a
position other than 0, the text before it does not trim to empty, and
the trimmed suffix after it is not parseable as an integer. -/
theorem C3_invalidSortNumber_iff (filename : String) :
    parseFilename filename = .error .invalidSortNumber ↔
      ∃ i, lastIdxOf '-' (stripExtCh filename.toList) = some i ∧ i ≠ 0 ∧
        trimCh ((stripExtCh filename.toList).take i) ≠ [] ∧
        parseIntJs (trimCh ((stripExtCh filename.toList).drop (i + 1))) = none :=
  parseFilenameCh_invalid_iff filename.toList

/-- Claim C3 witness: instantiation at the spec's example "ABC-xx.jpg". -/
theorem C3_invalidSortNumber_iff_witness :
    parseFilename "ABC-xx.jpg" = .error .invalidSortNumber :=
  (C3_invalidSortNumber_iff "ABC-xx.jpg").mpr ⟨3, by decide, by decide, by decide, by decide⟩

/-- Claim C4: whenever `parseFilename` succeeds, the returned SKU is the
trimmed, upper-cased text before the last hyphen of the extension-stripped
name, and the sort order is the non-negative integer parsed from the
trimmed text after that hyphen. -/
theorem C4_parse_success_shape (filename : String) (r : ParseResult)
    (h : parseFilename filename = .ok r) :
    ∃ i, lastIdxOf '-' (stripExtCh filename.toList) = some i ∧
      r.sku = toUpperStr (String.mk (trimCh ((stripExtCh filename.toList).take i))) ∧
      parseIntJs (trimCh ((stripExtCh filename.toList).drop (i + 1))) =
        some (r.sortOrder : Int) :=
  parseFilenameCh_ok_shape filename.toList r h

/-- Claim C4 witness: instantiation at the spec's example filename. -/
theorem C4_parse_success_shape_witness :
    parseFilename "SUMMER-DRESS-RED-01.jpg" = .ok ⟨"SUMMER-DRESS-RED", 1⟩ ∧
    ∃ i, lastIdxOf '-' (stripExtCh ("SUMMER-DRESS-RED-01.jpg" : String).toList) = some i ∧
      (⟨"SUMMER-DRESS-RED", 1⟩ : ParseResult).sku =
        toUpperStr (String.mk (trimCh ((stripExtCh ("SUMMER-DRESS-RED-01.jpg" : String).toList).take i))) ∧
      parseIntJs (trimCh ((stripExtCh ("SUMMER-DRESS-RED-01.jpg" : String).toList).drop (i + 1))) =
        some ((⟨"SUMMER-DRESS-RED", 1⟩ : ParseResult).sortOrder : Int) :=
  ⟨by decide, C4_parse_success_shape "SUMMER-DRESS-RED-01.jpg" ⟨"SUMMER-DRESS-RED", 1⟩ (by decide)⟩

/-! ## Stable sorting

JavaScript `Array.prototype.sort` is a stable comparison sort; we embed
it as a structurally recursive insertion sort, which is stable and
kernel-computable. `lexLe` models string comparison (`localeCompare`) as
lexicographic order on code units. -/

/-- Insert `x` before the first element `y` with `le x y`. -/
def insertLe {α : Type} (le : α → α → Bool) (x : α) : List α → List α
  | [] => [x]
  | y :: ys => if le x y then x :: y :: ys else y :: insertLe le x ys

/-- Stable insertion sort by the boolean relation `le`. -/
def sortByLe {α : Type} (le : α → α → Bool) : List α → List α
  | [] => []
  | x :: xs => insertLe le x (sortByLe le xs)

theorem mem_insertLe {α : Type} (le : α → α → Bool) (x a : α) (l : List α) :
    a ∈ insertLe le x l ↔ a = x ∨ a ∈ l := by
  induction l with
  | nil => simp [insertLe]
  | cons y ys ih =>
    simp only [insertLe]
    split
    · simp
    · simp only [List.mem_cons, ih]
      tauto

theorem mem_sortByLe {α : Type} (le : α → α → Bool) (a : α) (l : List α) :
    a ∈ sortByLe le l ↔ a ∈ l := by
  induction l with
  | nil => simp [sortByLe]
  | cons x xs ih => simp [sortByLe, mem_insertLe, ih]

theorem pairwise_insertLe {α : Type} (le : α → α → Bool)
    (htot : ∀ a b, le a b = true ∨ le b a = true)
    (htrans : ∀ a b c, le a b = true → le b c = true → le a c = true)
    (x : α) (l : List α) (hl : l.Pairwise (fun a b => le a b = true)) :
    (insertLe le x l).Pairwise (fun a b => le a b = true) := by
  induction l with
  | nil => simp [insertLe]
  | cons y ys ih =>
    rcases List.pairwise_cons.mp hl with ⟨hy, hys⟩
    simp only [insertLe]
    split
    · next hxy =>
      refine List.pairwise_cons.mpr ⟨?_, hl⟩
      intro b hb
      rcases List.mem_cons.mp hb with hb | hb
      · rw [hb]; exact hxy
      · exact htrans x y b hxy (hy b hb)
    · next hxy =>
      refine List.pairwise_cons.mpr ⟨?_, ih hys⟩
      intro b hb
      rcases (mem_insertLe le x b ys).mp hb with hb | hb
      · rcases htot x y with h | h
        · exact absurd h hxy
        · rw [hb]; exact h
      · exact hy b hb

theorem pairwise_sortByLe {α : Type} (le : α → α → Bool)
    (htot : ∀ a b, le a b = true ∨ le b a = true)
    (htrans : ∀ a b c, le a b = true → le b c = true → le a c = true)
    (l : List α) : (sortByLe le l).Pairwise (fun a b => le a b = true) := by
  induction l with
  | nil => simp [sortByLe]
  | cons x xs ih => exact pairwise_insertLe le htot htrans x (sortByLe le xs) ih

/-- Lexicographic comparison of character lists by code unit. -/
def lexLe : List Char → List Char → Bool
  | [], _ => true
  | _ :: _, [] => false
  | a :: as, b :: bs =>
    if a.toNat < b.toNat then true
    else if b.toNat < a.toNat then false
    else lexLe as bs

theorem lexLe_total : ∀ as bs, lexLe as bs = true ∨ lexLe bs as = true
  | [], _ => Or.inl rfl
  | _ :: _, [] => Or.inr rfl
  | a :: as, b :: bs => by
    by_cases hab : a.toNat < b.toNat
    · left; simp [lexLe, hab]
    · by_cases hba : b.toNat < a.toNat
      · right; simp [lexLe, hba]
      · rcases lexLe_total as bs with h | h
        · left; simpa [lexLe, hab, hba] using h
        · right; simpa [lexLe, hab, hba] using h

theorem lexLe_trans : ∀ as bs cs, lexLe as bs = true → lexLe bs cs = true →
    lexLe as cs = true
  | [], _, _, _, _ => rfl
  | _ :: _, [], _, h₁, _ => by simp [lexLe] at h₁
  | _ :: _, _ :: _, [], _, h₂ => by simp [lexLe] at h₂
  | a :: as, b :: bs, c :: cs, h₁, h₂ => by
    simp only [lexLe] at h₁ h₂ ⊢
    by_cases hab : a.toNat < b.toNat
    · by_cases hbc : b.toNat < c.toNat
      · rw [if_pos (show a.toNat < c.toNat by omega)]
      · by_cases hcb : c.toNat < b.toNat
        · rw [if_neg hbc, if_pos hcb] at h₂; exact absurd h₂ (by decide)
        · rw [if_pos (show a.toNat < c.toNat by omega)]
    · by_cases hba : b.toNat < a.toNat
      · rw [if_neg hab, if_pos hba] at h₁; exact absurd h₁ (by decide)
      · by_cases hbc : b.toNat < c.toNat
        · rw [if_pos (show a.toNat < c.toNat by omega)]
        · by_cases hcb : c.toNat < b.toNat
          · rw [if_neg hbc, if_pos hcb] at h₂; exact absurd h₂ (by decide)
          · rw [if_neg hab, if_neg hba] at h₁
            rw [if_neg hbc, if_neg hcb] at h₂
            rw [if_neg (show ¬ a.toNat < c.toNat by omega),
              if_neg (show ¬ c.toNat < a.toNat by omega)]
            exact lexLe_trans as bs cs h₁ h₂

/-! ## Data model -/

/-- Parsed-file record (`ParsedFileData` in `~/types`): parse metadata as
carried through the pipeline. The raw byte payload is irrelevant to every
claim and is omitted. -/
structure ParsedFileData where
  originalFilename : String
  sku : String
  sortOrder : Nat
  fileType : String
  fileSize : Nat
  isValid : Bool
  error : Option String
deriving DecidableEq, Repr

/-! ## Pattern analyzer (`analyzeImagePattern`, `src/unnamed/part_000`)

JavaScript object semantics matter twice here. `skuGroups` is a
`Record<string, number[]>` whose keys enumerate in insertion order, which
we model as a first-occurrence-ordered association list. `countFrequency`
is a `Record<number, number>`: integer-like keys enumerate in ascending
numeric order, which we model as an ascending association list. -/

/-- First-occurrence de-duplication with an accumulator of already-seen
keys (insertion order of a JS object's string keys). -/
def dedupAux (seen : List String) : List String → List String
  | [] => []
  | x :: xs => if x ∈ seen then dedupAux seen xs else x :: dedupAux (x :: seen) xs

/-- The valid-file subset (`files.filter((f) => f.isValid)`). -/
def validOf (files : List ParsedFileData) : List ParsedFileData :=
  files.filter (·.isValid)

/-- Group sort orders per SKU, keys in first-occurrence order
(`skuGroups` in `analyzeImagePattern`). -/
def skuGroupsOf (files : List ParsedFileData) : List (String × List Nat) :=
  (dedupAux [] ((validOf files).map (·.sku))).map
    (fun k => (k, ((validOf files).filter (fun f => f.sku = k)).map (·.sortOrder)))

/-- Per-SKU image counts in key order. -/
def countsOf (files : List ParsedFileData) : List Nat :=
  (skuGroupsOf files).map (fun g => g.2.length)

/-- The `countFrequency` record as an ascending association list from
count value to its frequency among SKUs. -/
def countFreqOf (files : List ParsedFileData) : List (Nat × Nat) :=
  ((List.range ((countsOf files).foldl max 0 + 1)).filter
      (fun c => decide (c ∈ countsOf files))).map
    (fun c => (c, (countsOf files).count c))

/-- One step of the most-common-count scan: keep the incumbent unless the
frequency strictly improves. -/
def pmStep (acc cf : Nat × Nat) : Nat × Nat :=
  if cf.2 > acc.2 then cf else acc

/-- The `mostCommonCount`/`maxFrequency` scan over `countFrequency`,
started from `(0, 0)` as in the source. -/
def pickMode (l : List (Nat × Nat)) : Nat × Nat :=
  l.foldl pmStep (0, 0)

/-- The most common per-SKU image count. -/
def mostCommonCountOf (files : List ParsedFileData) : Nat :=
  (pickMode (countFreqOf files)).1

/-- The frequency of the most common count (`maxFrequency`). -/
def maxFrequencyOf (files : List ParsedFileData) : Nat :=
  (pickMode (countFreqOf files)).2

/-- Consistency test: `maxFrequency >= skus.length * 0.5`, exactly
`2 * maxFrequency ≥ number of SKUs` over the integers. -/
def isConsistentOf (files : List ParsedFileData) : Bool :=
  decide (2 * maxFrequencyOf files ≥ (skuGroupsOf files).length)

/-- Greatest sort order in a group (`Math.max(...sortOrders)`; the group
is never empty in context, `0` is returned for an empty list). -/
def maxSortOf (orders : List Nat) : Nat :=
  match orders with
  | [] => 0
  | o :: rest => rest.foldl max o

/-- Least sort order in a group (`Math.min(...sortOrders)`). -/
def minSortOf (orders : List Nat) : Nat :=
  match orders with
  | [] => 0
  | o :: rest => rest.foldl min o

/-- Integers from the group's minimum to its maximum sort order that are
absent from the group: the gap scan of `analyzeImagePattern`. -/
def gapsOf (orders : List Nat) : List Nat :=
  ((List.range (maxSortOf orders + 1 - minSortOf orders)).map
      (fun j => minSortOf orders + j)).filter
    (fun i => !(orders.contains i))

/-- The `missingNumbers` of one SKU: its gaps, or — when the pattern is
consistent, the count is below the mode and there are no gaps — trailing
numbers synthesized after the maximum sort order. -/
def missingOf (mcc : Nat) (consistent : Bool) (orders : List Nat) : List Nat :=
  if consistent = true ∧ orders.length < mcc ∧ gapsOf orders = [] then
    (List.range (mcc - orders.length)).map (fun j => maxSortOf orders + 1 + j)
  else gapsOf orders

/-- Warning record emitted by the analyzer (`MissingImageWarning`). -/
structure MissingImageWarning where
  sku : String
  expectedCount : Nat
  actualCount : Nat
  missingNumbers : List Nat
  hasGaps : Bool
deriving DecidableEq, Repr

/-- The analyzer's per-SKU warning: emitted when the SKU has gaps, or
when the pattern is consistent and its count is below the mode. -/
def warningOf (mcc : Nat) (consistent : Bool) (g : String × List Nat) :
    Option MissingImageWarning :=
  if gapsOf g.2 ≠ [] ∨ (consistent = true ∧ g.2.length < mcc) then
    some ⟨g.1, mcc, g.2.length, missingOf mcc consistent g.2,
      decide (gapsOf g.2 ≠ [])⟩
  else none

/-- Warning order: by SKU (`localeCompare`, modelled as code-unit order). -/
def warningLe (w₁ w₂ : MissingImageWarning) : Bool :=
  lexLe w₁.sku.toList w₂.sku.toList

/-- All warnings of a run, sorted by SKU. -/
def warningsOf (files : List ParsedFileData) : List MissingImageWarning :=
  sortByLe warningLe ((skuGroupsOf files).filterMap
    (warningOf (mostCommonCountOf files) (isConsistentOf files)))

/-- Result record of the analyzer (`PatternAnalysis`). -/
structure PatternAnalysis where
  mostCommonCount : Nat
  totalSkus : Nat
  skusWithExpectedCount : Nat
  warnings : List MissingImageWarning
  isConsistentPattern : Bool
deriving DecidableEq, Repr

/-- Embedding of `analyzeImagePattern` (`src/unnamed/part_000`): `none`
models the `null` returned when no valid file or fewer than 2 distinct
SKUs are present. -/
def analyzeImagePattern (files : List ParsedFileData) : Option PatternAnalysis :=
  if validOf files = [] then none
  else if (skuGroupsOf files).length < 2 then none
  else some
    { mostCommonCount := mostCommonCountOf files
      totalSkus := (skuGroupsOf files).length
      skusWithExpectedCount := maxFrequencyOf files
      warnings := warningsOf files
      isConsistentPattern := isConsistentOf files }

/-- Helper to build a valid parsed file for concrete test inputs. -/
def mkValid (sku : String) (sortOrder : Nat) : ParsedFileData :=
  ⟨sku ++ "-" ++ Nat.repr sortOrder ++ ".jpg", sku, sortOrder, "image/jpeg", 100, true, none⟩

example : skuGroupsOf [mkValid "A" 0, mkValid "B" 0, mkValid "A" 1] =
    [("A", [0, 1]), ("B", [0])] := by decide

example : gapsOf [1, 4, 2] = [3] := by decide

example : analyzeImagePattern [mkValid "A" 0] = none := by rfl

/-! ## Claim C10: determinism of `mostCommonCount` -/

theorem le_foldl_max (l : List Nat) (acc : Nat) :
    acc ≤ l.foldl max acc ∧ ∀ x ∈ l, x ≤ l.foldl max acc := by
  induction l generalizing acc with
  | nil => simp
  | cons y ys ih =>
    have h := ih (max acc y)
    refine ⟨le_trans (le_max_left acc y) h.1, ?_⟩
    intro x hx
    rcases List.mem_cons.mp hx with rfl | hx
    · exact le_trans (le_max_right acc x) h.1
    · exact h.2 x hx

theorem mem_countFreqOf (files : List ParsedFileData) (c f : Nat) :
    (c, f) ∈ countFreqOf files ↔ c ∈ countsOf files ∧ f = (countsOf files).count c := by
  unfold countFreqOf
  simp only [List.mem_map, List.mem_filter, List.mem_range,
    decide_eq_true_eq, Prod.mk.injEq]
  constructor
  · rintro ⟨d, ⟨_, hd⟩, rfl, rfl⟩
    exact ⟨hd, rfl⟩
  · rintro ⟨hc, rfl⟩
    exact ⟨c, ⟨by have := (le_foldl_max (countsOf files) 0).2 c hc; omega, hc⟩, rfl, rfl⟩

theorem countFreqOf_sorted (files : List ParsedFileData) :
    (countFreqOf files).Pairwise (fun p q => p.1 < q.1) := by
  unfold countFreqOf
  rw [List.pairwise_map]
  exact (List.pairwise_lt_range _).filter _

theorem pmFold_ge (l : List (Nat × Nat)) (acc : Nat × Nat) :
    acc.2 ≤ (l.foldl pmStep acc).2 ∧ ∀ p ∈ l, p.2 ≤ (l.foldl pmStep acc).2 := by
  induction l generalizing acc with
  | nil => simp
  | cons q qs ih =>
    have h := ih (pmStep acc q)
    have hle : acc.2 ≤ (pmStep acc q).2 := by unfold pmStep; split <;> omega
    have hq : q.2 ≤ (pmStep acc q).2 := by unfold pmStep; split <;> omega
    refine ⟨le_trans hle h.1, ?_⟩
    intro p hp
    rcases List.mem_cons.mp hp with rfl | hp
    · exact le_trans hq h.1
    · exact h.2 p hp

theorem pmFold_mem (l : List (Nat × Nat)) (acc : Nat × Nat) :
    l.foldl pmStep acc = acc ∨
      (l.foldl pmStep acc ∈ l ∧ acc.2 < (l.foldl pmStep acc).2) := by
  induction l generalizing acc with
  | nil => left; rfl
  | cons q qs ih =>
    rw [List.foldl_cons]
    rcases ih (pmStep acc q) with heq | ⟨hmem, hlt⟩
    · rw [heq]
      by_cases hgt : q.2 > acc.2
      · right
        have hstep : pmStep acc q = q := by unfold pmStep; rw [if_pos hgt]
        rw [hstep]
        exact ⟨List.mem_cons_self q qs, hgt⟩
      · left
        unfold pmStep
        rw [if_neg hgt]
    · right
      refine ⟨List.mem_cons_of_mem q hmem, lt_of_le_of_lt ?_ hlt⟩
      unfold pmStep; split <;> omega

theorem pmFold_min (l : List (Nat × Nat)) (hs : l.Pairwise (fun p q => p.1 < q.1)) :
    ∀ acc c f, (c, f) ∈ l → f = (l.foldl pmStep acc).2 →
      f ≤ acc.2 ∨ (l.foldl pmStep acc).1 ≤ c := by
  induction l with
  | nil => intro acc c f h; simp at h
  | cons q qs ih =>
    rcases List.pairwise_cons.mp hs with ⟨hq, hqs⟩
    intro acc c f hmem hf
    rw [List.foldl_cons] at hf ⊢
    rcases List.mem_cons.mp hmem with heq | hmem₂
    · have hc : c = q.1 := by rw [← heq]
      have hfq : f = q.2 := by rw [← heq]
      by_cases hgt : q.2 > acc.2
      · have hstep : pmStep acc q = q := by unfold pmStep; rw [if_pos hgt]
        rw [hstep] at hf ⊢
        rcases pmFold_mem qs q with heq₂ | ⟨-, hlt₂⟩
        · right; rw [heq₂, hc]
        · exfalso; omega
      · left; omega
    · rcases ih hqs (pmStep acc q) c f hmem₂ hf with hle | hmin
      · by_cases hgt : q.2 > acc.2
        · have hstep : pmStep acc q = q := by unfold pmStep; rw [if_pos hgt]
          rw [hstep] at hle hf ⊢
          have hge := (pmFold_ge qs q).1
          rcases pmFold_mem qs q with heq₂ | ⟨-, hlt₂⟩
          · right
            rw [heq₂]
            exact le_of_lt (hq (c, f) hmem₂)
          · exfalso; omega
        · left
          have hstep : pmStep acc q = acc := by unfold pmStep; rw [if_neg hgt]
          rw [hstep] at hle
          exact hle
      · right; exact hmin

theorem analyze_eq_some (files : List ParsedFileData) (a : PatternAnalysis)
    (h : analyzeImagePattern files = some a) :
    a = ⟨mostCommonCountOf files, (skuGroupsOf files).length, maxFrequencyOf files,
        warningsOf files, isConsistentOf files⟩ ∧
      validOf files ≠ [] ∧ 2 ≤ (skuGroupsOf files).length := by
  unfold analyzeImagePattern at h
  split at h
  · exact absurd h (by simp)
  · split at h
    · exact absurd h (by simp)
    · next h₁ h₂ => exact ⟨(Option.some.inj h).symm, h₁, by omega⟩

theorem countsOf_ne_nil (files : List ParsedFileData) (hv : validOf files ≠ []) :
    countsOf files ≠ [] := by
  unfold countsOf skuGroupsOf
  cases hval : validOf files with
  | nil => exact absurd hval hv
  | cons f fs => simp [dedupAux]

/-- Claim C10: `mostCommonCount` is deterministic. Whenever the analyzer
returns an analysis, the pair (mostCommonCount, maxFrequency) occurs in
the ascending count-frequency table, every frequency in the table is at
most maxFrequency, and every count tied at maxFrequency is at least
mostCommonCount — i.e. the smallest count wins ties. -/
theorem C10_mostCommonCount_smallest (files : List ParsedFileData) (a : PatternAnalysis)
    (h : analyzeImagePattern files = some a) :
    (a.mostCommonCount, maxFrequencyOf files) ∈ countFreqOf files ∧
    ∀ c f, (c, f) ∈ countFreqOf files →
      f ≤ maxFrequencyOf files ∧
      (f = maxFrequencyOf files → a.mostCommonCount ≤ c) := by
  obtain ⟨ha, hv, -⟩ := analyze_eq_some files a h
  have hcounts := countsOf_ne_nil files hv
  obtain ⟨c₀, hc₀⟩ := List.exists_mem_of_ne_nil _ hcounts
  have hcf₀ : (c₀, (countsOf files).count c₀) ∈ countFreqOf files :=
    (mem_countFreqOf files c₀ _).mpr ⟨hc₀, rfl⟩
  have hpos : 0 < (countsOf files).count c₀ := List.count_pos_iff.mpr hc₀
  have hmaxpos : 0 < maxFrequencyOf files :=
    lt_of_lt_of_le hpos ((pmFold_ge (countFreqOf files) (0, 0)).2 _ hcf₀)
  have hmccdef : a.mostCommonCount = (pickMode (countFreqOf files)).1 := by
    rw [ha]; rfl
  have hmaxdef : maxFrequencyOf files = (pickMode (countFreqOf files)).2 := rfl
  constructor
  · rcases pmFold_mem (countFreqOf files) (0, 0) with heq | ⟨hmem, -⟩
    · exfalso
      have : maxFrequencyOf files = 0 := by
        rw [hmaxdef]; unfold pickMode; rw [heq]
      omega
    · rw [hmccdef, hmaxdef]
      simpa using hmem
  · intro c f hcf
    refine ⟨(pmFold_ge (countFreqOf files) (0, 0)).2 _ hcf, ?_⟩
    intro hfmax
    rcases pmFold_min (countFreqOf files) (countFreqOf_sorted files) (0, 0) c f hcf
        (by rw [hfmax, hmaxdef]; rfl) with hle | hmin
    · exfalso; rw [hfmax] at hle; simp only at hle; omega
    · rw [hmccdef]; exact hmin

/-- Concrete input with a frequency tie: counts 1 and 2 both occur once. -/
def exC10 : List ParsedFileData := [mkValid "A" 0, mkValid "B" 0, mkValid "B" 1]

/-- Claim C10 witness: on the tied input, `mostCommonCount = 1`, the
smaller of the two tied counts. -/
theorem C10_mostCommonCount_smallest_witness :
    ((⟨1, 2, 1, [], true⟩ : PatternAnalysis).mostCommonCount, maxFrequencyOf exC10) ∈
        countFreqOf exC10 ∧
    ∀ c f, (c, f) ∈ countFreqOf exC10 →
      f ≤ maxFrequencyOf exC10 ∧
      (f = maxFrequencyOf exC10 →
        (⟨1, 2, 1, [], true⟩ : PatternAnalysis).mostCommonCount ≤ c) :=
  C10_mostCommonCount_smallest exC10 ⟨1, 2, 1, [], true⟩ (by decide)

/-! ## Claim C5: warning emission of the analyzer -/

theorem warningLe_total (a b : MissingImageWarning) :
    warningLe a b = true ∨ warningLe b a = true :=
  lexLe_total a.sku.toList b.sku.toList

theorem warningLe_trans (a b c : MissingImageWarning) :
    warningLe a b = true → warningLe b c = true → warningLe a c = true :=
  lexLe_trans a.sku.toList b.sku.toList c.sku.toList

theorem pairwise_lt_map_add (n k : Nat) :
    (((List.range n).map (fun j => k + j)).Pairwise (· < ·)) := by
  rw [List.pairwise_map]
  exact (List.pairwise_lt_range n).imp (fun h => by omega)

theorem gapsOf_pairwise (orders : List Nat) : (gapsOf orders).Pairwise (· < ·) := by
  unfold gapsOf
  exact (pairwise_lt_map_add _ _).filter _

theorem missingOf_pairwise (mcc : Nat) (consistent : Bool) (orders : List Nat) :
    (missingOf mcc consistent orders).Pairwise (· < ·) := by
  unfold missingOf
  split
  · exact pairwise_lt_map_add _ _
  · exact gapsOf_pairwise orders

/-- Concrete analyzer input with per-SKU counts 1, 2, 2, 3, 4. -/
def exC5 : List ParsedFileData :=
  [mkValid "A" 0,
   mkValid "B" 0, mkValid "B" 1,
   mkValid "C" 0, mkValid "C" 1,
   mkValid "D" 0, mkValid "D" 1, mkValid "D" 2,
   mkValid "E" 0, mkValid "E" 1, mkValid "E" 2, mkValid "E" 3]

/-- Claim C5 (counterexample): five SKUs with counts 1, 2, 2, 3, 4. The
mode is 2 with frequency 2, which is below half of 5, so the pattern is
inconsistent and the code emits no warning at all — in particular none
for SKU "A", whose count 1 is below the mode and which has no gaps,
although the claim demands one. -/
theorem C5_counterexample :
    analyzeImagePattern exC5 = some ⟨2, 5, 2, [], false⟩ ∧
    ("A", [0]) ∈ skuGroupsOf exC5 ∧
    gapsOf [0] = [] ∧
    ([0] : List Nat).length < 2 := by
  refine ⟨by decide, by decide, by decide, by decide⟩

/-- Claim C5 (amended): whenever the analyzer returns an analysis, its
warnings are sorted by SKU, and every SKU group that has gaps — or whose
count is below `mostCommonCount` while the pattern is consistent —
contributes a warning carrying that SKU, `expectedCount =
mostCommonCount`, its actual count, ascending missing numbers, and the
gap flag. (The original claim omits the consistency requirement on the
below-mode case.) -/
theorem C5_warnings_complete (files : List ParsedFileData) (a : PatternAnalysis)
    (h : analyzeImagePattern files = some a) :
    a.warnings.Pairwise (fun w₁ w₂ => lexLe w₁.sku.toList w₂.sku.toList = true) ∧
    ∀ g ∈ skuGroupsOf files,
      (gapsOf g.2 ≠ [] ∨ (isConsistentOf files = true ∧ g.2.length < a.mostCommonCount)) →
      ∃ w ∈ a.warnings, w.sku = g.1 ∧ w.expectedCount = a.mostCommonCount ∧
        w.actualCount = g.2.length ∧ w.hasGaps = decide (gapsOf g.2 ≠ []) ∧
        w.missingNumbers.Pairwise (· < ·) := by
  obtain ⟨ha, -, -⟩ := analyze_eq_some files a h
  subst ha
  constructor
  · exact pairwise_sortByLe warningLe warningLe_total warningLe_trans _
  · intro g hg hcond
    have hw : warningOf (mostCommonCountOf files) (isConsistentOf files) g =
        some ⟨g.1, mostCommonCountOf files, g.2.length,
          missingOf (mostCommonCountOf files) (isConsistentOf files) g.2,
          decide (gapsOf g.2 ≠ [])⟩ := by
      unfold warningOf
      rw [if_pos hcond]
    refine ⟨⟨g.1, mostCommonCountOf files, g.2.length,
        missingOf (mostCommonCountOf files) (isConsistentOf files) g.2,
        decide (gapsOf g.2 ≠ [])⟩,
      ?_, rfl, rfl, rfl, rfl, missingOf_pairwise _ _ _⟩
    exact (mem_sortByLe warningLe _ _).mpr (List.mem_filterMap.mpr ⟨g, hg, hw⟩)

/-- Concrete analyzer input where SKU "A" is missing its middle image. -/
def exC5w : List ParsedFileData :=
  [mkValid "A" 0, mkValid "A" 2, mkValid "B" 0, mkValid "B" 1]

/-- Claim C5 witness: on the run where SKU "A" skips sort order 1, the
analysis reports exactly the warning for "A" with its gap. -/
theorem C5_warnings_complete_witness :
    (PatternAnalysis.warnings ⟨2, 2, 2, [⟨"A", 2, 2, [1], true⟩], true⟩).Pairwise
        (fun w₁ w₂ => lexLe w₁.sku.toList w₂.sku.toList = true) ∧
    ∀ g ∈ skuGroupsOf exC5w,
      (gapsOf g.2 ≠ [] ∨ (isConsistentOf exC5w = true ∧ g.2.length <
          PatternAnalysis.mostCommonCount ⟨2, 2, 2, [⟨"A", 2, 2, [1], true⟩], true⟩)) →
      ∃ w ∈ PatternAnalysis.warnings ⟨2, 2, 2, [⟨"A", 2, 2, [1], true⟩], true⟩,
        w.sku = g.1 ∧
        w.expectedCount =
          PatternAnalysis.mostCommonCount ⟨2, 2, 2, [⟨"A", 2, 2, [1], true⟩], true⟩ ∧
        w.actualCount = g.2.length ∧ w.hasGaps = decide (gapsOf g.2 ≠ []) ∧
        w.missingNumbers.Pairwise (· < ·) :=
  C5_warnings_complete exC5w ⟨2, 2, 2, [⟨"A", 2, 2, [1], true⟩], true⟩ (by decide)

/-! ## Upload queue (`app/utils/imageQueue.server.ts`)

The remote media API is a `Transport` record giving the outcome of each
possible call; the JS `try/catch` around each call becomes `Except`
matching. Every orchestration function also returns the list of
transport calls it issues, in program order (the order the `await`s and
dispatches occur in the source). -/

/-- Catalog record for one product (`ProductData` in `~/types`). -/
structure ProductData where
  id : String
  title : String
  mediaIds : List String
deriving DecidableEq, Repr

/-- The three upload strategies. -/
inductive UploadStrategy where
  | replace
  | prepend
  | append
deriving DecidableEq, Repr

/-- Run settings (`UploadSettings` in `~/types`); the sparse
`altTextByPosition` object is an association list keyed by position. -/
structure UploadSettings where
  dryRun : Bool
  uploadStrategy : UploadStrategy
  seoOptimization : Bool
  altTextByPosition : List (Nat × String)
deriving DecidableEq, Repr

/-- Status of one processed file. -/
inductive UploadStatus where
  | success
  | error
  | skipped
  | dryRun
deriving DecidableEq, Repr

/-- Per-file outcome (`ProcessingResult` in `~/types`). -/
structure ProcessingResult where
  filename : String
  detectedSku : String
  productFound : Bool
  productTitle : Option String
  productId : Option String
  status : UploadStatus
  errorDetails : Option String
deriving DecidableEq, Repr

/-- Staged upload target returned by the first transport step. -/
structure StagedUploadTarget where
  url : String
  resourceUrl : String
deriving DecidableEq, Repr

/-- Outcomes of the five remote calls of `shopifyMedia.server.ts`,
indexed by their arguments; `Except.error` models a thrown error. -/
structure Transport where
  createStagedUpload : ParsedFileData → Except String StagedUploadTarget
  uploadToStagedTarget : StagedUploadTarget → ParsedFileData → Except String Unit
  createProductMedia : String → String → Option String → Except String String
  deleteProductMedia : String → List String → Except String Unit
  reorderProductMedia : String → Nat → Except String Unit

/-- One issued transport call. Group-level calls carry their outcome;
it is recorded as part of the call completing before the next step. -/
inductive TransportEvent where
  | createTarget (filename : String)
  | upload (filename : String)
  | registerMedia (productId : String) (resourceUrl : String) (altText : Option String)
  | deleteMedia (productId : String) (mediaIds : List String) (outcome : Except String Unit)
  | reorderMedia (productId : String) (moved : Nat) (outcome : Except String Unit)
deriving DecidableEq

/-- JavaScript `String(n).padStart(2, "0")` for a natural number. -/
def pad2 (n : Nat) : String :=
  if n < 10 then "0" ++ Nat.repr n else Nat.repr n

/-- First-match lookup in the sparse position-to-text mapping
(`settings.altTextByPosition?.[file.sortOrder]`). -/
def lookupPos (m : List (Nat × String)) (n : Nat) : Option String :=
  match m with
  | [] => none
  | (k, v) :: rest => if k = n then some v else lookupPos rest n

/-- The alt-text suffix: `customText || "View NN"`. An empty custom text
is falsy in JS and falls back to the default. -/
def altSuffix (m : List (Nat × String)) (n : Nat) : String :=
  match lookupPos m n with
  | some s => if s = "" then "View " ++ pad2 n else s
  | none => "View " ++ pad2 n

/-- Alt text computed in `processOneUpload` when `seoOptimization` is on. -/
def altTextFor (settings : UploadSettings) (product : ProductData)
    (f : ParsedFileData) : Option String :=
  if settings.seoOptimization then
    some (product.title ++ " - " ++ altSuffix settings.altTextByPosition f.sortOrder)
  else none

/-- Embedding of `processOneUpload`: the three-step staged transfer,
where any step's failure yields an error result carrying its message.
The returned event list records the calls issued. -/
def processOneUpload (t : Transport) (file : ParsedFileData) (product : ProductData)
    (settings : UploadSettings) : ProcessingResult × List TransportEvent :=
  match t.createStagedUpload file with
  | .error e =>
    (⟨file.originalFilename, file.sku, true, some product.title, some product.id,
       .error, some e⟩,
     [.createTarget file.originalFilename])
  | .ok tgt =>
    match t.uploadToStagedTarget tgt file with
    | .error e =>
      (⟨file.originalFilename, file.sku, true, some product.title, some product.id,
         .error, some e⟩,
       [.createTarget file.originalFilename, .upload file.originalFilename])
    | .ok _ =>
      match t.createProductMedia product.id tgt.resourceUrl
          (altTextFor settings product file) with
      | .error e =>
        (⟨file.originalFilename, file.sku, true, some product.title, some product.id,
           .error, some e⟩,
         [.createTarget file.originalFilename, .upload file.originalFilename,
          .registerMedia product.id tgt.resourceUrl (altTextFor settings product file)])
      | .ok _ =>
        (⟨file.originalFilename, file.sku, true, some product.title, some product.id,
           .success, none⟩,
         [.createTarget file.originalFilename, .upload file.originalFilename,
          .registerMedia product.id tgt.resourceUrl (altTextFor settings product file)])

/-- Sort key used for files: ascending `sortOrder`
(`(a, b) => a.sortOrder - b.sortOrder`). -/
def fileLeSort (a b : ParsedFileData) : Bool :=
  a.sortOrder ≤ b.sortOrder

/-- Number of successful results (`successfulUploads.length`). -/
def successCountOf (rs : List ProcessingResult) : Nat :=
  (rs.filter (fun r => r.status = .success)).length

/-- Embedding of `processProductFiles`: optional batched delete for the
`replace` strategy (outcome swallowed by the `catch`), the per-file
uploads in sort order, then the optional reorder for `prepend` (outcome
likewise swallowed). -/
def processProductFiles (t : Transport) (files : List ParsedFileData)
    (product : ProductData) (settings : UploadSettings) :
    List ProcessingResult × List TransportEvent :=
  ((sortByLe fileLeSort files).map (fun f => (processOneUpload t f product settings).1),
   (if settings.uploadStrategy = .replace ∧ product.mediaIds ≠ [] then
      [TransportEvent.deleteMedia product.id product.mediaIds
        (t.deleteProductMedia product.id product.mediaIds)]
    else []) ++
   ((sortByLe fileLeSort files).map
     (fun f => (processOneUpload t f product settings).2)).flatten ++
   (if settings.uploadStrategy = .prepend ∧ product.mediaIds ≠ [] ∧
       0 < successCountOf ((sortByLe fileLeSort files).map
         (fun f => (processOneUpload t f product settings).1)) then
      [TransportEvent.reorderMedia product.id
        (successCountOf ((sortByLe fileLeSort files).map
          (fun f => (processOneUpload t f product settings).1)))
        (t.reorderProductMedia product.id
          (successCountOf ((sortByLe fileLeSort files).map
            (fun f => (processOneUpload t f product settings).1))))]
    else []))

/-- Embedding of `processUploadQueue`: per SKU group, skip when the
product is absent, emit dry-run results without any call when `dryRun`
is set, otherwise run `processProductFiles`. -/
def processUploadQueue (t : Transport) (groupedFiles : List (String × List ParsedFileData))
    (productMap : String → Option ProductData) (settings : UploadSettings) :
    List ProcessingResult × List TransportEvent :=
  match groupedFiles with
  | [] => ([], [])
  | (sku, files) :: rest =>
    match productMap sku with
    | none =>
      (files.map (fun f => ⟨f.originalFilename, f.sku, false, none, none, .skipped,
          some ("No product found with SKU: " ++ sku)⟩) ++
        (processUploadQueue t rest productMap settings).1,
       (processUploadQueue t rest productMap settings).2)
    | some product =>
      if settings.dryRun then
        (files.map (fun f => ⟨f.originalFilename, f.sku, true, some product.title,
            some product.id, .dryRun, none⟩) ++
          (processUploadQueue t rest productMap settings).1,
         (processUploadQueue t rest productMap settings).2)
      else
        ((processProductFiles t files product settings).1 ++
          (processUploadQueue t rest productMap settings).1,
         (processProductFiles t files product settings).2 ++
          (processUploadQueue t rest productMap settings).2)

/-- A transport on which every call succeeds. -/
def tOk : Transport :=
  { createStagedUpload := fun f => .ok ⟨"up/" ++ f.originalFilename, "res/" ++ f.originalFilename⟩
    uploadToStagedTarget := fun _ _ => .ok ()
    createProductMedia := fun _ _ _ => .ok "media-1"
    deleteProductMedia := fun _ _ => .ok ()
    reorderProductMedia := fun _ _ => .ok () }

/-- Same as `tOk` except that `deleteMedia` fails. -/
def tDelFail : Transport :=
  { tOk with deleteProductMedia := fun _ _ => .error "delete failed" }

/-! ## Claim C6: alt text at the registration step -/

theorem registerMedia_alt (t : Transport) (file : ParsedFileData) (product : ProductData)
    (settings : UploadSettings) (pid url : String) (alt : Option String)
    (h : TransportEvent.registerMedia pid url alt ∈
      (processOneUpload t file product settings).2) :
    alt = altTextFor settings product file := by
  unfold processOneUpload at h
  split at h
  · simp at h
  · split at h
    · simp at h
    · split at h <;>
      · simp only [List.mem_cons, List.mem_singleton, List.not_mem_nil, or_false] at h
        rcases h with h | h | h <;> injection h

/-- Claim C6 (amended): with `seoOptimization` on, the alt text passed to
the registration call is `"<title> - <custom>"` when the position has a
non-empty custom text, and `"<title> - View NN"` when the position is
absent or its custom text is empty. (The original claim uses the custom
text whenever the key is present; the code also requires it non-empty,
because `||` treats the empty string as absent.) -/
theorem C6_altText_formula (t : Transport) (file : ParsedFileData) (product : ProductData)
    (settings : UploadSettings) (hseo : settings.seoOptimization = true)
    (pid url : String) (alt : Option String)
    (hmem : TransportEvent.registerMedia pid url alt ∈
      (processOneUpload t file product settings).2) :
    (∀ s, lookupPos settings.altTextByPosition file.sortOrder = some s → s ≠ "" →
        alt = some (product.title ++ " - " ++ s)) ∧
    ((lookupPos settings.altTextByPosition file.sortOrder = none ∨
      lookupPos settings.altTextByPosition file.sortOrder = some "") →
        alt = some (product.title ++ " - " ++ ("View " ++ pad2 file.sortOrder))) := by
  have halt := registerMedia_alt t file product settings pid url alt hmem
  subst halt
  unfold altTextFor
  rw [if_pos hseo]
  constructor
  · intro s hs hne
    simp [altSuffix, hs, hne]
  · intro hcase
    rcases hcase with hnone | hempty
    · simp [altSuffix, hnone]
    · simp [altSuffix, hempty]

/-- Concrete C6 fixtures: position 2 carries an empty custom text. -/
def exSettingsC6 : UploadSettings := ⟨false, .append, true, [(2, "")]⟩

/-- Claim C6 (counterexample): position 2 is present in the mapping with
the empty string, yet the registration call receives the default
"T - View 02" instead of the claimed "T - ". -/
theorem C6_counterexample :
    lookupPos exSettingsC6.altTextByPosition (mkValid "A" 2).sortOrder = some "" ∧
    (processOneUpload tOk (mkValid "A" 2) ⟨"pid", "T", []⟩ exSettingsC6).2 =
      [.createTarget "A-2.jpg", .upload "A-2.jpg",
       .registerMedia "pid" "res/A-2.jpg" (some "T - View 02")] ∧
    (some "T - View 02" : Option String) ≠ some "T - " :=
  ⟨by decide, by decide, by decide⟩

/-- Claim C6 witness: a non-empty custom text at position 1 is used. -/
theorem C6_altText_formula_witness :
    (some "T - front" : Option String) = some ("T" ++ " - " ++ "front") :=
  (C6_altText_formula tOk (mkValid "A" 1) ⟨"pid", "T", []⟩
      ⟨false, .append, true, [(1, "front")]⟩ rfl
      "pid" "res/A-1.jpg" (some "T - front") (by decide)).1 "front" (by decide) (by decide)

/-! ## Claim C7: replace strategy deletes once, first, harmlessly -/

theorem processOneUpload_congr (t₁ t₂ : Transport)
    (hc : t₁.createStagedUpload = t₂.createStagedUpload)
    (hu : t₁.uploadToStagedTarget = t₂.uploadToStagedTarget)
    (hp : t₁.createProductMedia = t₂.createProductMedia) :
    ∀ f product settings,
      processOneUpload t₁ f product settings = processOneUpload t₂ f product settings := by
  intro f product settings
  unfold processOneUpload
  rw [hc, hu, hp]

theorem processOneUpload_no_delete (t : Transport) (f : ParsedFileData)
    (product : ProductData) (settings : UploadSettings) :
    ∀ ev ∈ (processOneUpload t f product settings).2,
      ∀ pid ids out, ev ≠ TransportEvent.deleteMedia pid ids out := by
  intro ev hev pid ids out
  unfold processOneUpload at hev
  split at hev
  · simp only [List.mem_singleton] at hev
    subst hev; simp
  · split at hev
    · simp only [List.mem_cons, List.mem_singleton, List.not_mem_nil, or_false] at hev
      rcases hev with rfl | rfl <;> simp
    · split at hev <;>
      · simp only [List.mem_cons, List.mem_singleton, List.not_mem_nil, or_false] at hev
        rcases hev with rfl | rfl | rfl <;> simp

/-- Claim C7: with the replace strategy and a product owning media, the
group's trace opens with the single `deleteMedia` call — carrying its
outcome, i.e. completed before any upload is dispatched — no other
delete is issued, and the per-file results are unchanged by what the
delete call returns. -/
theorem C7_replace_delete_first (t₁ t₂ : Transport) (files : List ParsedFileData)
    (product : ProductData) (settings : UploadSettings)
    (hs : settings.uploadStrategy = .replace) (hm : product.mediaIds ≠ [])
    (hc : t₁.createStagedUpload = t₂.createStagedUpload)
    (hu : t₁.uploadToStagedTarget = t₂.uploadToStagedTarget)
    (hp : t₁.createProductMedia = t₂.createProductMedia) :
    (∃ rest, (processProductFiles t₁ files product settings).2 =
        TransportEvent.deleteMedia product.id product.mediaIds
          (t₁.deleteProductMedia product.id product.mediaIds) :: rest ∧
        ∀ ev ∈ rest, ∀ pid ids out, ev ≠ TransportEvent.deleteMedia pid ids out) ∧
    (processProductFiles t₁ files product settings).1 =
      (processProductFiles t₂ files product settings).1 := by
  constructor
  · refine ⟨((sortByLe fileLeSort files).map
        (fun f => (processOneUpload t₁ f product settings).2)).flatten, ?_, ?_⟩
    · show (processProductFiles t₁ files product settings).2 = _
      unfold processProductFiles
      rw [if_pos ⟨hs, hm⟩,
        if_neg (fun hcon => by rw [hs] at hcon; exact absurd hcon.1 (by simp))]
      simp
    · intro ev hev pid ids out
      rcases List.mem_flatten.mp hev with ⟨l, hl, hevl⟩
      rcases List.mem_map.mp hl with ⟨f, hf, rfl⟩
      exact processOneUpload_no_delete t₁ f product settings ev hevl pid ids out
  · unfold processProductFiles
    simp only [processOneUpload_congr t₁ t₂ hc hu hp]

/-- Claim C7 witness: a failing delete against a succeeding one, single
file, replace strategy. -/
theorem C7_replace_delete_first_witness :
    (∃ rest, (processProductFiles tDelFail [mkValid "A" 1] ⟨"pid", "T", ["m1"]⟩
        ⟨false, .replace, false, []⟩).2 =
        TransportEvent.deleteMedia "pid" ["m1"]
          (tDelFail.deleteProductMedia "pid" ["m1"]) :: rest ∧
        ∀ ev ∈ rest, ∀ pid ids out, ev ≠ TransportEvent.deleteMedia pid ids out) ∧
    (processProductFiles tDelFail [mkValid "A" 1] ⟨"pid", "T", ["m1"]⟩
        ⟨false, .replace, false, []⟩).1 =
      (processProductFiles tOk [mkValid "A" 1] ⟨"pid", "T", ["m1"]⟩
        ⟨false, .replace, false, []⟩).1 :=
  C7_replace_delete_first tDelFail tOk [mkValid "A" 1] ⟨"pid", "T", ["m1"]⟩
    ⟨false, .replace, false, []⟩ rfl (by decide) rfl rfl rfl

/-! ## Claim C8: dry run issues no transport call -/

/-- Claim C8: with `dryRun` on, the whole queue issues zero transport
calls, and every file of every SKU group whose SKU resolves to a product
yields a dry-run result with the product's title and id. -/
theorem C8_dryRun_no_calls (t : Transport) (grouped : List (String × List ParsedFileData))
    (productMap : String → Option ProductData) (settings : UploadSettings)
    (hd : settings.dryRun = true) :
    (processUploadQueue t grouped productMap settings).2 = [] ∧
    ∀ sku files, (sku, files) ∈ grouped → ∀ p, productMap sku = some p →
      ∀ f ∈ files,
        (⟨f.originalFilename, f.sku, true, some p.title, some p.id, .dryRun, none⟩ :
          ProcessingResult) ∈ (processUploadQueue t grouped productMap settings).1 := by
  induction grouped with
  | nil =>
    refine ⟨rfl, ?_⟩
    intro sku files h
    simp at h
  | cons g rest ih =>
    obtain ⟨sku₀, files₀⟩ := g
    constructor
    · show (processUploadQueue t ((sku₀, files₀) :: rest) productMap settings).2 = []
      unfold processUploadQueue
      rw [hd]
      cases hpm : productMap sku₀ with
      | none => exact ih.1
      | some p => exact ih.1
    · intro sku files hmem p hp f hf
      unfold processUploadQueue
      rw [hd]
      rcases List.mem_cons.mp hmem with heq | hmem'
      · injection heq with hsku hfiles
        subst hsku
        subst hfiles
        rw [hp]
        exact List.mem_append_left _ (List.mem_map.mpr ⟨f, hf, rfl⟩)
      · have htail := ih.2 sku files hmem' p hp f hf
        cases hpm : productMap sku₀ with
        | none => exact List.mem_append_right _ htail
        | some q => exact List.mem_append_right _ htail

/-- Concrete grouped input and product map for the C8 witness. -/
def exGrouped : List (String × List ParsedFileData) := [("A", [mkValid "A" 1])]

/-- Concrete resolver mapping SKU "A" to a product. -/
def exPm : String → Option ProductData :=
  fun s => if s = "A" then some ⟨"pid", "T", []⟩ else none

/-- Claim C8 witness: one resolvable file in dry-run mode. -/
theorem C8_dryRun_no_calls_witness :
    (processUploadQueue tOk exGrouped exPm ⟨true, .append, false, []⟩).2 = [] ∧
    (⟨"A-1.jpg", "A", true, some "T", some "pid", .dryRun, none⟩ : ProcessingResult) ∈
      (processUploadQueue tOk exGrouped exPm ⟨true, .append, false, []⟩).1 :=
  ⟨(C8_dryRun_no_calls tOk exGrouped exPm ⟨true, .append, false, []⟩ rfl).1,
   (C8_dryRun_no_calls tOk exGrouped exPm ⟨true, .append, false, []⟩ rfl).2
     "A" [mkValid "A" 1] (by decide) ⟨"pid", "T", []⟩ (by decide)
     (mkValid "A" 1) (by decide)⟩

/-! ## Run contract (`action` in `app/routes/app._index.tsx`)

The caller supplies parsed-file metadata; invalid entries become error
results placed before all group results. When no valid file exists the
action returns early with `success: false` and a summary literal that
omits the `dryRun` count (the `Summary.dryRun` field is optional in the
UI type, hence `Option Nat` here). -/

/-- Count of results with the given status. -/
def countStatus (st : UploadStatus) (rs : List ProcessingResult) : Nat :=
  (rs.filter (fun r => r.status = st)).length

/-- Error results produced for invalid files; `f.error || "Invalid file"`
falls back on an absent or empty message. -/
def invalidResultsOf (files : List ParsedFileData) : List ProcessingResult :=
  (files.filter (fun f => !f.isValid)).map
    (fun f => ⟨f.originalFilename, f.sku, false, none, none, .error,
      some (match f.error with
            | some e => if e = "" then "Invalid file" else e
            | none => "Invalid file")⟩)

/-- Embedding of `groupFilesBySku` (`fileParser.ts`): valid files grouped
by SKU in first-occurrence key order, each group sorted by sort order. -/
def groupFilesBySku (files : List ParsedFileData) : List (String × List ParsedFileData) :=
  (dedupAux [] ((files.filter (·.isValid)).map (·.sku))).map
    (fun k => (k, sortByLe fileLeSort ((files.filter (·.isValid)).filter (fun f => f.sku = k))))

/-- Summary counts; `dryRun` is optional because the early-return path of
the action omits it. -/
structure Summary where
  total : Nat
  successful : Nat
  failed : Nat
  skipped : Nat
  dryRun : Option Nat
deriving DecidableEq, Repr

/-- Embedding of `generateSummary` (`imageQueue.server.ts`). -/
def generateSummary (results : List ProcessingResult) : Summary :=
  ⟨results.length, countStatus .success results, countStatus .error results,
   countStatus .skipped results, some (countStatus .dryRun results)⟩

/-- The action's response to the caller. -/
structure ActionResponse where
  success : Bool
  results : List ProcessingResult
  summary : Summary
deriving DecidableEq, Repr

/-- Embedding of the `action`'s processing path
(`app/routes/app._index.tsx`): split valid from invalid metadata, return
early when nothing is valid, otherwise group, resolve, process the queue
and summarize; `success` is `summary.failed === 0`. -/
def action (t : Transport) (productMap : String → Option ProductData)
    (settings : UploadSettings) (files : List ParsedFileData) : ActionResponse :=
  if files.filter (fun f => f.isValid) = [] then
    ⟨false, invalidResultsOf files,
     ⟨(invalidResultsOf files).length, 0, (invalidResultsOf files).length, 0, none⟩⟩
  else
    ⟨decide ((generateSummary (invalidResultsOf files ++
        (processUploadQueue t (groupFilesBySku files) productMap settings).1)).failed = 0),
     invalidResultsOf files ++
       (processUploadQueue t (groupFilesBySku files) productMap settings).1,
     generateSummary (invalidResultsOf files ++
       (processUploadQueue t (groupFilesBySku files) productMap settings).1)⟩

/-! ## Claim C1: success flag versus failed count -/

/-- Claim C1 (counterexample): on an empty input list the action returns
`success = false` although `summary.failed = 0`, so the biconditional of
the claim fails. -/
theorem C1_counterexample :
    (action tOk (fun _ => none) ⟨false, .append, false, []⟩ []).success = false ∧
    (action tOk (fun _ => none) ⟨false, .append, false, []⟩ []).summary.failed = 0 :=
  ⟨rfl, rfl⟩

/-- Claim C1 (amended): for every run whose input list is nonempty, the
returned success flag is true if and only if the summary's failed count
is zero. (The original claim also covers the empty input list, where the
early return yields `success = false` with `failed = 0`.) -/
theorem C1_success_iff_failed_zero (t : Transport) (pm : String → Option ProductData)
    (settings : UploadSettings) (files : List ParsedFileData) (hne : files ≠ []) :
    ((action t pm settings files).success = true ↔
      (action t pm settings files).summary.failed = 0) := by
  unfold action
  by_cases hval : files.filter (fun f => f.isValid) = []
  · rw [if_pos hval]
    constructor
    · intro h
      exact absurd h (by simp)
    · intro h
      exfalso
      have hall : ∀ f ∈ files, ¬(f.isValid = true) := List.filter_eq_nil_iff.mp hval
      have hinv : files.filter (fun f => !f.isValid) = files :=
        List.filter_eq_self.mpr (fun f hf => by
          cases hb : f.isValid with
          | false => simp [hb]
          | true => exact absurd hb (hall f hf))
      have hlen : (invalidResultsOf files).length = 0 := h
      rw [invalidResultsOf, List.length_map, hinv] at hlen
      exact hne (List.length_eq_zero.mp hlen)
  · rw [if_neg hval]
    exact Iff.intro (fun h => of_decide_eq_true h) (fun h => decide_eq_true h)

/-- An invalid input file for concrete runs. -/
def exInvalidFile : ParsedFileData :=
  ⟨"bad.jpg", "", 0, "text/plain", 100, false, some "Invalid file type"⟩

/-- Claim C1 witness: a run with one invalid file. -/
theorem C1_success_iff_failed_zero_witness :
    ((action tOk (fun _ => none) ⟨false, .append, false, []⟩ [exInvalidFile]).success = true ↔
      (action tOk (fun _ => none) ⟨false, .append, false, []⟩ [exInvalidFile]).summary.failed = 0) :=
  C1_success_iff_failed_zero tOk (fun _ => none) ⟨false, .append, false, []⟩
    [exInvalidFile] (by simp)

/-! ## Claim C2: summary invariant -/

theorem length_eq_sum_countStatus (l : List ProcessingResult) :
    l.length = countStatus .success l + countStatus .error l + countStatus .skipped l +
      countStatus .dryRun l := by
  induction l with
  | nil => rfl
  | cons r rs ih =>
    unfold countStatus at ih ⊢
    cases hst : r.status <;> simp [List.filter_cons, hst] <;> omega

theorem countStatus_invalidResultsOf (files : List ParsedFileData) (st : UploadStatus) :
    countStatus st (invalidResultsOf files) =
      if st = .error then (invalidResultsOf files).length else 0 := by
  unfold countStatus invalidResultsOf
  rw [List.filter_map]
  by_cases h : st = .error
  · rw [if_pos h]
    subst h
    rw [List.filter_eq_self.mpr (fun a _ => by simp [Function.comp])]
  · rw [if_neg h]
    rw [List.filter_eq_nil_iff.mpr (fun a _ => by
      simp only [Function.comp, decide_eq_true_eq]
      exact fun heq => h heq.symm)]
    rfl

/-- Claim C2: in every run, `summary.total` is the sum of the four
status counts, and each summary field equals the count of results with
the corresponding status (absent `dryRun` counting as zero). -/
theorem C2_summary_invariant (t : Transport) (pm : String → Option ProductData)
    (settings : UploadSettings) (files : List ParsedFileData) :
    (action t pm settings files).summary.total =
        (action t pm settings files).summary.successful +
        (action t pm settings files).summary.failed +
        (action t pm settings files).summary.skipped +
        ((action t pm settings files).summary.dryRun.getD 0) ∧
    (action t pm settings files).summary.successful =
        countStatus .success (action t pm settings files).results ∧
    (action t pm settings files).summary.failed =
        countStatus .error (action t pm settings files).results ∧
    (action t pm settings files).summary.skipped =
        countStatus .skipped (action t pm settings files).results ∧
    (action t pm settings files).summary.dryRun.getD 0 =
        countStatus .dryRun (action t pm settings files).results := by
  unfold action
  by_cases hval : files.filter (fun f => f.isValid) = []
  · rw [if_pos hval]
    refine ⟨?_, ?_, ?_, ?_, ?_⟩
    · show (invalidResultsOf files).length =
        0 + (invalidResultsOf files).length + 0 + (Option.getD none 0)
      simp
    · show (0 : Nat) = countStatus .success (invalidResultsOf files)
      simp [countStatus_invalidResultsOf]
    · show (invalidResultsOf files).length = countStatus .error (invalidResultsOf files)
      simp [countStatus_invalidResultsOf]
    · show (0 : Nat) = countStatus .skipped (invalidResultsOf files)
      simp [countStatus_invalidResultsOf]
    · show (Option.getD none 0 : Nat) = countStatus .dryRun (invalidResultsOf files)
      simp [countStatus_invalidResultsOf]
  · rw [if_neg hval]
    exact ⟨length_eq_sum_countStatus _, rfl, rfl, rfl, rfl⟩

/-! ## Claim C9: the bounded worker pool

`p-limit(5)` keeps a shared `activeCount` and a pending queue: a
submitted task runs at once when a slot is free and is queued otherwise;
when a task settles, the count drops and a queued task (if any) is
started. The pool is modelled as this state machine, quantifying over
every possible interleaving of submissions and completions. -/

/-- The two observable scheduler events of the pool. -/
inductive PoolEvent where
  | submit
  | complete
deriving DecidableEq, Repr

/-- The fixed pool width (`MAX_CONCURRENT` in `imageQueue.server.ts`). -/
def MAX_CONCURRENT : Nat := 5

/-- Pool state: tasks in flight and tasks waiting for a slot. -/
structure PoolState where
  active : Nat
  queued : Nat
deriving DecidableEq, Repr

/-- One scheduler transition of the `p-limit` pool. -/
def poolStep (s : PoolState) : PoolEvent → PoolState
  | .submit =>
    if s.active < MAX_CONCURRENT then ⟨s.active + 1, s.queued⟩
    else ⟨s.active, s.queued + 1⟩
  | .complete =>
    if s.active = 0 then s
    else if 0 < s.queued ∧ s.active - 1 < MAX_CONCURRENT then ⟨s.active, s.queued - 1⟩
    else ⟨s.active - 1, s.queued⟩

/-- State reached from the idle pool after a sequence of events. -/
def poolExec (events : List PoolEvent) : PoolState :=
  events.foldl poolStep ⟨0, 0⟩

theorem poolStep_le (s : PoolState) (ev : PoolEvent)
    (hs : s.active ≤ MAX_CONCURRENT) : (poolStep s ev).active ≤ MAX_CONCURRENT := by
  cases ev with
  | submit =>
    show (if s.active < MAX_CONCURRENT then (⟨s.active + 1, s.queued⟩ : PoolState)
        else ⟨s.active, s.queued + 1⟩).active ≤ MAX_CONCURRENT
    by_cases h : s.active < MAX_CONCURRENT
    · rw [if_pos h]
      show s.active + 1 ≤ MAX_CONCURRENT
      omega
    · rw [if_neg h]
      exact hs
  | complete =>
    show (if s.active = 0 then s
        else if 0 < s.queued ∧ s.active - 1 < MAX_CONCURRENT then
          (⟨s.active, s.queued - 1⟩ : PoolState)
        else ⟨s.active - 1, s.queued⟩).active ≤ MAX_CONCURRENT
    by_cases h0 : s.active = 0
    · rw [if_pos h0]
      exact hs
    · rw [if_neg h0]
      by_cases hq : 0 < s.queued ∧ s.active - 1 < MAX_CONCURRENT
      · rw [if_pos hq]
        exact hs
      · rw [if_neg hq]
        show s.active - 1 ≤ MAX_CONCURRENT
        omega

theorem poolFold_le (l : List PoolEvent) (s : PoolState)
    (hs : s.active ≤ MAX_CONCURRENT) : (l.foldl poolStep s).active ≤ MAX_CONCURRENT := by
  induction l generalizing s with
  | nil => exact hs
  | cons ev evs ih => exact ih _ (poolStep_le s ev hs)

/-- Claim C9: in a run with more than `MAX_CONCURRENT` submitted upload
tasks, after every prefix of the scheduler's event sequence at most
`MAX_CONCURRENT` tasks are in flight. -/
theorem C9_pool_bounded (events : List PoolEvent)
    (hpend : MAX_CONCURRENT < events.count .submit) :
    ∀ p q, events = p ++ q → (poolExec p).active ≤ MAX_CONCURRENT := by
  intro p q hpq
  exact poolFold_le p ⟨0, 0⟩ (by simp [MAX_CONCURRENT])

/-- Claim C9 witness: six submissions, checked after the third. -/
theorem C9_pool_bounded_witness :
    MAX_CONCURRENT < (List.replicate 6 PoolEvent.submit).count .submit ∧
    (poolExec (List.replicate 3 PoolEvent.submit)).active ≤ MAX_CONCURRENT :=
  ⟨by decide,
   C9_pool_bounded (List.replicate 6 PoolEvent.submit) (by decide)
     (List.replicate 3 PoolEvent.submit) (List.replicate 3 PoolEvent.submit) (by decide)⟩
